import Mathlib

/-!
Verification development for a small file-upload service.

The program keeps `FileRecord` metadata about uploaded files in an
in-memory store mirrored to a JSON snapshot file (`storage.py`),
validates and copies uploads (`uploader.py`), and computes line/word
counts over stored file content with robust text decoding
(`processor.py`).

Shallow embedding conventions:
* A Python `str` of file content is a `List Char`; raw file bytes are
  `List (Fin 256)`.
* `pathlib.Path` values are carried as their string rendering
  (`str(Path(s)) = s` up to formatting, which the round-trip claims
  explicitly allow for).
* A `datetime` value is carried as its ISO-8601 rendering: Python
  guarantees `datetime.fromisoformat(d.isoformat()) == d`, so the
  serialization pair acts as the identity on the carried string.
* A JSON object read from the snapshot is a `RawEntry` whose fields are
  `Option`s: `none` models both an absent key and an explicit `null`
  (for the optional fields Python's `d.get(k)` conflates the two; the
  required fields are accessed with `d[k]`, whose `KeyError` is modelled
  by `Except`).
* Filesystem side effects (the store's snapshot flush, the uploads
  directory) are threaded explicitly through results.
-/

/-- Record describing one uploaded file (`models.FileRecord`). -/
structure FileRecord where
  id : String
  original_name : String
  stored_path : String
  size_bytes : Int
  uploaded_at : String
  status : String
  line_count : Option Int
  word_count : Option Int
deriving DecidableEq, Repr

/-- One JSON object of the snapshot array. Every field is optional
because a hand-written snapshot may omit keys; `InMemoryDB._to_dict`
always emits all eight. -/
structure RawEntry where
  id : Option String
  original_name : Option String
  stored_path : Option String
  size_bytes : Option Int
  uploaded_at : Option String
  status : Option String
  line_count : Option Int
  word_count : Option Int
deriving DecidableEq, Repr

/-- Serialization of a record (`InMemoryDB._to_dict`): emits every key;
`str(fr.stored_path)` and `fr.uploaded_at.isoformat()` are the carried
strings. -/
def toDict (fr : FileRecord) : RawEntry :=
  { id := some fr.id
    original_name := some fr.original_name
    stored_path := some fr.stored_path
    size_bytes := some fr.size_bytes
    uploaded_at := some fr.uploaded_at
    status := some fr.status
    line_count := fr.line_count
    word_count := fr.word_count }

/-- Required-key access `d[k]`: raises `KeyError` when the key is
absent. -/
def reqKey {α : Type} : Option α → Except Unit α
  | some a => Except.ok a
  | none => Except.error ()

/-- Deserialization of a snapshot entry (`InMemoryDB._from_dict`):
`id`, `original_name`, `stored_path`, `size_bytes` and `uploaded_at`
are accessed with `d[...]` (required), `status` defaults to
`"UPLOADED"` via `d.get("status", "UPLOADED")`, and the two counts use
plain `d.get(...)`. `int(d["size_bytes"])` is the identity on an
integer, and `Path` / `fromisoformat` are identities per the embedding
conventions. -/
def fromDictE (d : RawEntry) : Except Unit FileRecord := do
  let i ← reqKey d.id
  let n ← reqKey d.original_name
  let p ← reqKey d.stored_path
  let s ← reqKey d.size_bytes
  let t ← reqKey d.uploaded_at
  pure { id := i
         original_name := n
         stored_path := p
         size_bytes := s
         uploaded_at := t
         status := d.status.getD "UPLOADED"
         line_count := d.line_count
         word_count := d.word_count }

/-- Store mutation `InMemoryDB.save` on the in-memory mapping
`self._rows[record.id] = record`: Python dict assignment replaces the
value in place when the key exists and appends otherwise. -/
def dbSave (rows : List FileRecord) (r : FileRecord) : List FileRecord :=
  if rows.any (fun q => q.id == r.id) then
    rows.map (fun q => if q.id == r.id then r else q)
  else
    rows ++ [r]

/-- Store lookup `InMemoryDB.get`: `self._rows.get(record_id)`. -/
def dbGet (rows : List FileRecord) (recordId : String) : Option FileRecord :=
  rows.find? (fun q => q.id == recordId)

/-- Snapshot serialization performed by `InMemoryDB._flush`:
`[self._to_dict(fr) for fr in self._rows.values()]`. -/
def dbSnapshot (rows : List FileRecord) : List RawEntry :=
  rows.map toDict

/-- Dict comprehension `{d["id"]: self._from_dict(d) for d in items}`:
entries are inserted in order with dict-assignment semantics. -/
def buildRows (recs : List FileRecord) : List FileRecord :=
  recs.foldl dbSave []

/-- Startup load `InMemoryDB._load`. The argument is the outcome of
`json.loads` on the snapshot file (`Except.error` for an unreadable
file or invalid JSON). Any `KeyError` inside `_from_dict` is caught by
the same `except Exception` and yields an empty store. -/
def loadRows (parsed : Except Unit (List RawEntry)) : List FileRecord :=
  match parsed with
  | Except.error _ => []
  | Except.ok items =>
    match items.mapM fromDictE with
    | Except.error _ => []
    | Except.ok recs => buildRows recs

/-- Well-formed store contents: the record ids are pairwise distinct,
as is forced by the keyed dict `self._rows`. -/
def wfRows (rows : List FileRecord) : Prop :=
  (rows.map (fun r => r.id)).Nodup

instance (rows : List FileRecord) : Decidable (wfRows rows) := by
  unfold wfRows; infer_instance

/-- Line-boundary characters of Python `str.splitlines` (the set from
the CPython documentation: LF, CR, vertical tab, form feed, FS, GS, RS,
NEL, LINE SEPARATOR, PARAGRAPH SEPARATOR; CRLF is handled as a single
boundary by the splitter itself). -/
def isLineBoundary (c : Char) : Bool :=
  c == '\n' || c == '\r' || c == '\x0b' || c == '\x0c' ||
  c == '\x1c' || c == '\x1d' || c == '\x1e' || c == '\x85' ||
  c == '\u2028' || c == '\u2029'

/-- Whitespace test of Python `str.split()` with no argument
(`str.isspace` / `Py_UNICODE_ISSPACE`): ASCII whitespace, the
separator controls FS/GS/RS/US, NEL, NBSP, OGHAM SPACE MARK, the
EN-QUAD..HAIR-SPACE range, LS, PS, NNBSP, MMSP and IDEOGRAPHIC
SPACE. -/
def isPySpace (c : Char) : Bool :=
  c == ' ' || c == '\t' || c == '\n' || c == '\x0b' || c == '\x0c' ||
  c == '\r' || c == '\x1c' || c == '\x1d' || c == '\x1e' || c == '\x1f' ||
  c == '\x85' || c == '\xa0' || c == '\u1680' ||
  (decide ('\u2000' ≤ c) && decide (c ≤ '\u200a')) ||
  c == '\u2028' || c == '\u2029' || c == '\u202f' || c == '\u205f' || c == '\u3000'

/-- Worker for `str.splitlines()`: accumulates the current line in
reverse; a CRLF pair ends one line. -/
def splitlinesAux : List Char → List Char → List (List Char)
  | [], acc => if acc.isEmpty then [] else [acc.reverse]
  | c :: rest, acc =>
    if isLineBoundary c then
      match rest with
      | n :: rest2 =>
        if c == '\r' && n == '\n' then acc.reverse :: splitlinesAux rest2 []
        else acc.reverse :: splitlinesAux (n :: rest2) []
      | [] => [acc.reverse]
    else splitlinesAux rest (c :: acc)

/-- Python `text.splitlines()` (without `keepends`): a trailing
boundary produces no extra empty line. -/
def pySplitlines (cs : List Char) : List (List Char) :=
  splitlinesAux cs []

/-- Worker counting the tokens of `str.split()` (no argument): runs of
whitespace collapse and empty tokens are dropped, so the count is the
number of maximal non-whitespace runs. The flag records whether the
previous character was inside a word. -/
def countTokensAux : List Char → Bool → Nat
  | [], _ => 0
  | c :: rest, inWord =>
    if isPySpace c then countTokensAux rest false
    else (if inWord then 0 else 1) + countTokensAux rest true

/-- Value of `len(s.split())` for a Python string `s`. -/
def countTokens (cs : List Char) : Nat :=
  countTokensAux cs false

/-- Translation of `processor._count_lines_words`: `text.splitlines()`
for the line count, and the sum of `len(ln.split())` over the lines for
the word count. -/
def countLinesWords (text : List Char) : Nat × Nat :=
  let lines := pySplitlines text
  (lines.length, (lines.map countTokens).sum)

/-- Continuation-byte test for UTF-8 (`0x80..0xBF`). -/
def isCont (b : Fin 256) : Bool :=
  decide (0x80 ≤ b.val) && decide (b.val < 0xC0)

/-- Strict UTF-8 decoding, the behaviour of
`path.read_text(encoding="utf-8")` on the file's bytes: rejects
continuation bytes in lead position, overlong encodings, surrogate
code points and lead bytes above `0xF4`. -/
def utf8Decode : List (Fin 256) → Option (List Char)
  | [] => some []
  | b :: rest =>
    let n := b.val
    if n < 0x80 then
      (utf8Decode rest).map (fun cs => Char.ofNat n :: cs)
    else if n < 0xC2 then none
    else if n < 0xE0 then
      match rest with
      | b2 :: rest2 =>
        if isCont b2 then
          (utf8Decode rest2).map (fun cs =>
            Char.ofNat ((n - 0xC0) * 64 + (b2.val - 0x80)) :: cs)
        else none
      | [] => none
    else if n < 0xF0 then
      match rest with
      | b2 :: b3 :: rest3 =>
        if isCont b2 && isCont b3
            && !(n == 0xE0 && b2.val < 0xA0)
            && !(n == 0xED && 0xA0 ≤ b2.val) then
          (utf8Decode rest3).map (fun cs =>
            Char.ofNat ((n - 0xE0) * 4096 + (b2.val - 0x80) * 64
              + (b3.val - 0x80)) :: cs)
        else none
      | _ => none
    else if n < 0xF5 then
      match rest with
      | b2 :: b3 :: b4 :: rest4 =>
        if isCont b2 && isCont b3 && isCont b4
            && !(n == 0xF0 && b2.val < 0x90)
            && !(n == 0xF4 && 0x90 ≤ b2.val) then
          (utf8Decode rest4).map (fun cs =>
            Char.ofNat ((n - 0xF0) * 262144 + (b2.val - 0x80) * 4096
              + (b3.val - 0x80) * 64 + (b4.val - 0x80)) :: cs)
        else none
      | _ => none
    else none

/-- Decoding with `encoding="utf-8-sig"`: strips a leading
`EF BB BF` byte-order mark if present and decodes the rest as strict
UTF-8. -/
def utf8SigDecode (bs : List (Fin 256)) : Option (List Char) :=
  match bs with
  | b1 :: b2 :: b3 :: rest =>
    if b1.val == 0xEF && b2.val == 0xBB && b3.val == 0xBF then utf8Decode rest
    else utf8Decode bs
  | _ => utf8Decode bs

/-- Decoding with `encoding="latin-1"`: every byte `b` maps to the
code point `U+00b`, so the decode succeeds on every byte sequence. -/
def latin1Decode (bs : List (Fin 256)) : Option (List Char) :=
  some (bs.map (fun b => Char.ofNat b.val))

/-- Decoding with `encoding="utf-8", errors="ignore"`: like the strict
decoder but bytes that do not start a valid sequence are skipped (the
model resynchronizes byte by byte after an invalid sequence). -/
def utf8IgnoreDecode : List (Fin 256) → List Char
  | [] => []
  | b :: rest =>
    let n := b.val
    if n < 0x80 then Char.ofNat n :: utf8IgnoreDecode rest
    else if n < 0xC2 then utf8IgnoreDecode rest
    else if n < 0xE0 then
      match rest with
      | b2 :: rest2 =>
        if isCont b2 then
          Char.ofNat ((n - 0xC0) * 64 + (b2.val - 0x80))
            :: utf8IgnoreDecode rest2
        else utf8IgnoreDecode (b2 :: rest2)
      | [] => []
    else if n < 0xF0 then
      match rest with
      | b2 :: b3 :: rest3 =>
        if isCont b2 && isCont b3
            && !(n == 0xE0 && b2.val < 0xA0)
            && !(n == 0xED && 0xA0 ≤ b2.val) then
          Char.ofNat ((n - 0xE0) * 4096 + (b2.val - 0x80) * 64
            + (b3.val - 0x80)) :: utf8IgnoreDecode rest3
        else utf8IgnoreDecode (b2 :: b3 :: rest3)
      | [b2] => utf8IgnoreDecode [b2]
      | [] => []
    else if n < 0xF5 then
      match rest with
      | b2 :: b3 :: b4 :: rest4 =>
        if isCont b2 && isCont b3 && isCont b4
            && !(n == 0xF0 && b2.val < 0x90)
            && !(n == 0xF4 && 0x90 ≤ b2.val) then
          Char.ofNat ((n - 0xF0) * 262144 + (b2.val - 0x80) * 4096
            + (b3.val - 0x80) * 64 + (b4.val - 0x80))
            :: utf8IgnoreDecode rest4
        else utf8IgnoreDecode (b2 :: b3 :: b4 :: rest4)
      | [b2, b3] => utf8IgnoreDecode [b2, b3]
      | [b2] => utf8IgnoreDecode [b2]
      | [] => []
    else utf8IgnoreDecode rest

/-- Failure kind that `processor._read_text_robust` can raise on its
own (`DecodeError`, step 4's `except Exception` arm). -/
inductive ReadErr
  | decodeFailure
deriving DecidableEq, Repr

/-- Translation of `processor._read_text_robust` on the bytes of a
readable file: try strict UTF-8, then UTF-8 with BOM allowance, then
Latin-1; step 4 (UTF-8 with errors ignored) cannot raise in the pure
model, so its `DecodeError` re-raise is never reached once the file's
bytes have been read. -/
def readTextRobust (bs : List (Fin 256)) : Except ReadErr (List Char) :=
  match utf8Decode bs with
  | some s => Except.ok s
  | none =>
  match utf8SigDecode bs with
  | some s => Except.ok s
  | none =>
  match latin1Decode bs with
  | some s => Except.ok s
  | none => Except.ok (utf8IgnoreDecode bs)

/-- Splitting a character list on `/`, keeping empty segments. -/
def splitSlash : List Char → List (List Char)
  | [] => [[]]
  | c :: rest =>
    match splitSlash rest with
    | seg :: segs => if c == '/' then [] :: seg :: segs else (c :: seg) :: segs
    | [] => [[]]

/-- Final component of a path (`pathlib.Path(p).name`): the last
non-empty slash-separated component. -/
def pathName (p : String) : String :=
  String.mk (((splitSlash p.data).filter (fun s => !s.isEmpty)).getLastD [])

/-- Index of the last dot in a character list (`name.rfind('.')`). -/
def rfindDot : List Char → Option Nat
  | [] => none
  | c :: rest =>
    match rfindDot rest with
    | some i => some (i + 1)
    | none => if c == '.' then some 0 else none

/-- File extension of a path (`pathlib.Path(p).suffix`): the final
component's tail from its last dot, provided that dot is neither the
component's first nor last character; empty otherwise. -/
def pathSuffix (p : String) : String :=
  let name := (pathName p).data
  match rfindDot name with
  | some i =>
    if 0 < i ∧ i + 1 < name.length then String.mk (name.drop i) else ""
  | none => ""

/-- Allowed upload extensions (`config.ALLOWED_EXTENSIONS`). -/
def ALLOWED_EXTENSIONS : List String := [".txt", ".csv"]

/-- Lower-casing of a string (`str.lower()`); on the ASCII strings the
uploader compares, `Char.toLower` agrees with Python. -/
def asciiLower (s : String) : String :=
  String.mk (s.data.map Char.toLower)

/-- Translation of `uploader.is_allowed_file`:
`path.suffix.lower() in config.ALLOWED_EXTENSIONS`. -/
def is_allowed_file (p : String) : Bool :=
  ALLOWED_EXTENSIONS.contains (asciiLower (pathSuffix p))

deriving instance DecidableEq for Except

/-- Upload failure kinds (`exceptions.py`): `FileAccessError`,
`InvalidFileTypeError` and the generic `UploadError` wrapper. -/
inductive UploadErr
  | fileAccess
  | invalidType
  | uploadFailure
deriving DecidableEq, Repr

/-- Managed upload directory (`config.UPLOADS_DIR`), carried as a
string. -/
def UPLOADS_DIR : String := "uploads"

/-- Record constructed by `upload_file`: `models.FileRecord` defaults
supply `status="UPLOADED"` and absent counts; `uploaded_at` defaults to
the creation instant, passed here explicitly. -/
def mkUploadRecord (targetName origName destPath : String)
    (sizeBytes : Int) (now : String) : FileRecord :=
  { id := targetName
    original_name := origName
    stored_path := destPath
    size_bytes := sizeBytes
    uploaded_at := now
    status := "UPLOADED"
    line_count := none
    word_count := none }

/-- Outcome of `uploader.upload_file` with its side effects made
explicit: the store rows and the managed directory's contents after
the call, and the returned record or raised error. -/
structure UploadOutcome where
  rows : List FileRecord
  uploadsDir : List String
  result : Except UploadErr FileRecord
deriving DecidableEq, Repr

/-- Translation of `uploader.upload_file`. Inputs that the Python code
obtains from the environment are parameters: `srcIsRegularFile` is
`src_path.exists() and src_path.is_file()`, `uuidHex` is
`uuid.uuid4().hex`, `copiedSize` is `dest_path.stat().st_size` after
the copy, and `now` is the record-creation timestamp. The uploads
directory is the list of file paths it contains. -/
def upload_file (srcPath : String) (srcIsRegularFile : Bool)
    (uuidHex : String) (copiedSize : Int) (now : String)
    (rows : List FileRecord) (uploadsDir : List String) : UploadOutcome :=
  if !srcIsRegularFile then
    ⟨rows, uploadsDir, Except.error UploadErr.fileAccess⟩
  else if !is_allowed_file srcPath then
    ⟨rows, uploadsDir, Except.error UploadErr.invalidType⟩
  else
    let targetName := uuidHex ++ asciiLower (pathSuffix srcPath)
    let destPath := UPLOADS_DIR ++ "/" ++ targetName
    let record := mkUploadRecord targetName (pathName srcPath) destPath
      copiedSize now
    ⟨dbSave rows record, uploadsDir ++ [destPath], Except.ok record⟩

/-- Processing failure kinds (`exceptions.py`): `RecordNotFoundError`,
`DecodeError` and the generic `ProcessingError` wrapper. -/
inductive ProcErr
  | recordNotFound
  | decodeFailed
  | processingFailed
deriving DecidableEq, Repr

/-- Field update performed by `process_file` on a found record:
`rec.line_count = line_count; rec.word_count = word_count;
rec.status = "PROCESSED"`. -/
def applyProcess (rec : FileRecord) (lineCount wordCount : Nat) : FileRecord :=
  { rec with
    line_count := some (lineCount : Int)
    word_count := some (wordCount : Int)
    status := "PROCESSED" }

/-- Outcome of `processor.process_file` with its side effects made
explicit: the store rows after the call, the snapshot written by
`db.save`'s flush (`none` when no flush happened), and the returned
record or raised error. -/
structure ProcOutcome where
  rows : List FileRecord
  flushed : Option (List RawEntry)
  result : Except ProcErr FileRecord
deriving DecidableEq, Repr

/-- Translation of `processor.process_file`. `fileBytes` models the
filesystem: the byte content a `read_text` call would see at a path,
or `none` when reading raises (a missing or unreadable file, caught by
the generic `except Exception` arm and wrapped as `ProcessingError`). -/
def process_file (fileBytes : String → Option (List (Fin 256)))
    (rows : List FileRecord) (recordId : String) : ProcOutcome :=
  match dbGet rows recordId with
  | none => ⟨rows, none, Except.error ProcErr.recordNotFound⟩
  | some rec =>
    match fileBytes rec.stored_path with
    | none => ⟨rows, none, Except.error ProcErr.processingFailed⟩
    | some bytes =>
      match readTextRobust bytes with
      | Except.error _ => ⟨rows, none, Except.error ProcErr.decodeFailed⟩
      | Except.ok text =>
        let counts := countLinesWords text
        let rec2 := applyProcess rec counts.1 counts.2
        let rows2 := dbSave rows rec2
        ⟨rows2, some (dbSnapshot rows2), Except.ok rec2⟩

/-- Modelled from the spec: the boundary set named by the round-one
reading of the spec's counting rule — `\n`, `\r\n` and bare `\r` only
(`\r\n` pairing is handled by the splitter). -/
def claimedLineBoundary (c : Char) : Bool :=
  c == '\n' || c == '\r'

/-- Modelled from the spec: line counting over a parameterized
boundary-character set. A CRLF pair whose CR is a boundary counts as a
single boundary; every boundary terminates one (possibly empty) line;
a trailing boundary opens no new line. The flag records whether a line
is currently open. -/
def lineCountByAux (isB : Char → Bool) : List Char → Bool → Nat
  | [], inLine => if inLine then 1 else 0
  | c :: rest, _ =>
    if isB c then
      match rest with
      | n :: rest2 =>
        if c == '\r' && n == '\n' then 1 + lineCountByAux isB rest2 false
        else 1 + lineCountByAux isB (n :: rest2) false
      | [] => 1
    else lineCountByAux isB rest true

/-- Modelled from the spec: number of lines of a text under a given
boundary-character set. -/
def lineCountBy (isB : Char → Bool) (cs : List Char) : Nat :=
  lineCountByAux isB cs false

/-- Records reachable through the core operations: created by
`upload_file`, mutated by a successful `process_file`, or carried
through a store snapshot round-trip
(`_from_dict` after `_to_dict`). -/
inductive ReachableRecord : FileRecord → Prop where
  | upload (targetName origName destPath : String) (sizeBytes : Int)
      (now : String) :
      ReachableRecord (mkUploadRecord targetName origName destPath
        sizeBytes now)
  | process (r : FileRecord) (lc wc : Nat) :
      ReachableRecord r → ReachableRecord (applyProcess r lc wc)
  | reload (r r2 : FileRecord) :
      ReachableRecord r → fromDictE (toDict r) = Except.ok r2 →
      ReachableRecord r2

/-- Concrete file bytes (the text `hi\n`) used by witness
statements. -/
def wFileBytes : List (Fin 256) := [104, 105, 10]

/-- Concrete uploaded record used by witness statements. -/
def wRecord : FileRecord :=
  mkUploadRecord "aaa.txt" "x.txt" "uploads/aaa.txt" 3
    "2026-01-01T00:00:00+00:00"

/-- Concrete one-file filesystem used by witness statements. -/
def wFs : String → Option (List (Fin 256)) :=
  fun p => if p = "uploads/aaa.txt" then some wFileBytes else none

/-- Concrete processed record: `hi\n` has one line and one word. -/
def wR1 : FileRecord := applyProcess wRecord 1 1

/-- Concrete store contents after processing `wRecord`. -/
def wRows1 : List FileRecord := [wR1]

theorem countTokensAux_space_append {c : Char} (hc : isPySpace c = true)
    (xs ys : List Char) (b : Bool) :
    countTokensAux (xs ++ c :: ys) b = countTokensAux xs b + countTokensAux ys false := by
  induction xs generalizing b with
  | nil => simp [countTokensAux, hc]
  | cons x xs ih =>
    by_cases hx : isPySpace x
    · simp [countTokensAux, hx, ih]
    · simp [countTokensAux, hx, ih, Nat.add_assoc]

theorem boundary_isSpace {c : Char} (h : isLineBoundary c = true) : isPySpace c = true := by
  simp only [isLineBoundary, Bool.or_eq_true, beq_iff_eq] at h
  rcases h with ((((((((h | h) | h) | h) | h) | h) | h) | h) | h) | h <;> subst h <;> rfl

theorem splitlines_tokens_aux (cs acc : List Char) :
    ((splitlinesAux cs acc).map countTokens).sum
      = countTokensAux (acc.reverse ++ cs) false := by
  induction cs, acc using splitlinesAux.induct with
  | case1 acc hacc =>
    rw [List.isEmpty_iff] at hacc
    subst hacc
    rfl
  | case2 acc hacc =>
    simp [splitlinesAux, hacc, countTokens]
  | case3 c acc hb n rest2 hpair ih =>
    simp only [Bool.and_eq_true, beq_iff_eq] at hpair
    obtain ⟨hc, hn⟩ := hpair
    subst hc; subst hn
    rw [splitlinesAux.eq_2, if_pos (by rfl : isLineBoundary '\r' = true),
      if_pos (by rfl : ('\r' == '\r' && '\n' == '\n') = true)]
    simp only [List.map_cons, List.sum_cons, ih, List.reverse_nil, List.nil_append]
    rw [countTokensAux_space_append (by rfl : isPySpace '\r' = true)]
    rw [countTokensAux, if_pos (by rfl : isPySpace '\n' = true)]
    rfl
  | case4 c acc hb n rest2 hpair ih =>
    rw [splitlinesAux.eq_2, if_pos hb, if_neg hpair]
    simp only [List.map_cons, List.sum_cons, ih, List.reverse_nil, List.nil_append]
    rw [countTokensAux_space_append (boundary_isSpace hb)]
    rfl
  | case5 c acc hb =>
    rw [splitlinesAux.eq_3, if_pos hb]
    rw [countTokensAux_space_append (boundary_isSpace hb)]
    simp [countTokens, countTokensAux]
  | case6 c rest acc hb ih =>
    cases rest with
    | nil =>
      rw [splitlinesAux.eq_3, if_neg hb, ih, List.reverse_cons, List.append_assoc]
      rfl
    | cons n rest2 =>
      rw [splitlinesAux.eq_2, if_neg hb, ih, List.reverse_cons, List.append_assoc]
      rfl

theorem splitlines_length_aux (cs acc : List Char) :
    (splitlinesAux cs acc).length
      = lineCountByAux isLineBoundary cs (!acc.isEmpty) := by
  induction cs, acc using splitlinesAux.induct with
  | case1 acc hacc =>
    rw [List.isEmpty_iff] at hacc
    subst hacc
    rfl
  | case2 acc hacc =>
    rw [Bool.not_eq_true] at hacc
    simp [splitlinesAux.eq_1, hacc, lineCountByAux]
  | case3 c acc hb n rest2 hpair ih =>
    rw [splitlinesAux.eq_2, if_pos hb, if_pos hpair, lineCountByAux.eq_2,
      if_pos hb, if_pos hpair]
    simp only [List.length_cons, List.isEmpty_nil, Bool.not_true, ih]
    omega
  | case4 c acc hb n rest2 hpair ih =>
    rw [splitlinesAux.eq_2, if_pos hb, if_neg hpair, lineCountByAux.eq_2,
      if_pos hb, if_neg hpair]
    simp only [List.length_cons, List.isEmpty_nil, Bool.not_true, ih]
    omega
  | case5 c acc hb =>
    rw [splitlinesAux.eq_3, if_pos hb, lineCountByAux.eq_3, if_pos hb]
    rfl
  | case6 c rest acc hb ih =>
    cases rest with
    | nil =>
      rw [splitlinesAux.eq_3, if_neg hb, lineCountByAux.eq_3, if_neg hb, ih]
      rfl
    | cons n rest2 =>
      rw [splitlinesAux.eq_2, if_neg hb, lineCountByAux.eq_2, if_neg hb, ih]
      rfl

/-- C3 counterexample: on the input `a`‹VT›`b` the code splits at the
vertical tab (2 lines) while the claim's boundary set (`\n`, `\r\n`,
bare `\r`) yields a single line. -/
theorem c3_count_lines_words_counterexample :
    (countLinesWords ['a', '\x0b', 'b']).1 = 2 ∧
    lineCountBy claimedLineBoundary ['a', '\x0b', 'b'] = 1 ∧
    (countLinesWords ['a', '\x0b', 'b']).1
      ≠ lineCountBy claimedLineBoundary ['a', '\x0b', 'b'] := by
  decide

/-- C3 amended. -/
theorem c3_count_lines_words_amended :
    (∀ text : List Char,
      countLinesWords text
        = (lineCountBy isLineBoundary text, countTokens text)) ∧
    countLinesWords
        "Hello there!\nThis is a tiny sample text file.\nIt has three lines.".data
      = (3, 13) ∧
    countLinesWords "name,age\nAlice,30\nBob,22\nCharlie,27\n".data = (4, 4) := by
  refine ⟨fun text => ?_, by decide, by decide⟩
  refine Prod.ext ?_ ?_
  · show (splitlinesAux text []).length = lineCountByAux isLineBoundary text false
    rw [splitlines_length_aux]
    rfl
  · show ((splitlinesAux text []).map countTokens).sum = countTokensAux text false
    rw [splitlines_tokens_aux]
    rfl

theorem from_to_dict (r : FileRecord) : fromDictE (toDict r) = Except.ok r := rfl

theorem mapM_loop_fromDict (l acc : List FileRecord) :
    List.mapM.loop fromDictE (l.map toDict) acc
      = Except.ok (acc.reverse ++ l) := by
  induction l generalizing acc with
  | nil => simp [List.mapM.loop]; rfl
  | cons r l ih =>
    rw [List.map_cons]
    show (fromDictE (toDict r) >>= fun x => List.mapM.loop fromDictE (l.map toDict) (x :: acc)) = _
    rw [from_to_dict]
    show List.mapM.loop fromDictE (l.map toDict) (r :: acc) = _
    rw [ih]
    simp

theorem mapM_fromDict_toDict (l : List FileRecord) :
    (l.map toDict).mapM fromDictE = Except.ok l := by
  show List.mapM.loop fromDictE (l.map toDict) [] = _
  rw [mapM_loop_fromDict]
  rfl

theorem dbSave_ids_of_mem (rows : List FileRecord) (r : FileRecord)
    (h : rows.any (fun q => q.id == r.id) = true) :
    (dbSave rows r).map (fun q => q.id) = rows.map (fun q => q.id) := by
  unfold dbSave
  rw [if_pos h, List.map_map]
  apply List.map_congr_left
  intro q _
  by_cases hq : q.id == r.id
  · simp only [Function.comp_apply, if_pos hq]
    exact (beq_iff_eq.mp hq).symm
  · simp only [Function.comp_apply, if_neg hq]

theorem wfRows_dbSave (rows : List FileRecord) (r : FileRecord)
    (h : wfRows rows) : wfRows (dbSave rows r) := by
  by_cases hmem : rows.any (fun q => q.id == r.id) = true
  · unfold wfRows
    rw [dbSave_ids_of_mem rows r hmem]
    exact h
  · unfold wfRows dbSave
    rw [if_neg hmem, List.map_append]
    rw [List.nodup_append]
    refine ⟨h, List.nodup_singleton _, ?_⟩
    intro a ha hb
    simp only [List.map_cons, List.map_nil, List.mem_singleton] at hb
    subst hb
    rw [Bool.not_eq_true, List.any_eq_false] at hmem
    obtain ⟨q, hq, hqid⟩ := List.mem_map.mp ha
    exact absurd (beq_iff_eq.mpr hqid) (by simpa using hmem q hq)

theorem find?_map_replace (rows : List FileRecord) (r : FileRecord)
    (h : rows.any (fun q => q.id == r.id) = true) :
    (rows.map (fun q => if q.id == r.id then r else q)).find?
      (fun q => q.id == r.id) = some r := by
  induction rows with
  | nil => simp at h
  | cons q rows ih =>
    simp only [List.any_cons, Bool.or_eq_true] at h
    rw [List.map_cons, List.find?_cons]
    by_cases hq : q.id == r.id
    · rw [if_pos hq]
      simp [beq_self_eq_true]
    · rw [if_neg hq]
      have h' : rows.any (fun q => q.id == r.id) = true := by
        rcases h with h | h
        · exact absurd h hq
        · exact h
      rw [Bool.not_eq_true] at hq
      simp only [hq]
      exact ih h'

theorem dbGet_dbSave_self (rows : List FileRecord) (r : FileRecord) :
    dbGet (dbSave rows r) r.id = some r := by
  unfold dbGet dbSave
  by_cases hmem : rows.any (fun q => q.id == r.id) = true
  · rw [if_pos hmem]
    exact find?_map_replace rows r hmem
  · rw [if_neg hmem, List.find?_append]
    have hnone : rows.find? (fun q => q.id == r.id) = none := by
      rw [List.find?_eq_none]
      intro x hx
      rw [Bool.not_eq_true, List.any_eq_false] at hmem
      simpa using hmem x hx
    simp [hnone, List.find?_cons, beq_self_eq_true]

theorem foldl_dbSave_of_wf (recs : List FileRecord) :
    ∀ acc : List FileRecord, wfRows (acc ++ recs) →
      recs.foldl dbSave acc = acc ++ recs := by
  induction recs with
  | nil => intro acc _; simp
  | cons r recs ih =>
    intro acc h
    have hnotmem : ¬acc.any (fun q => q.id == r.id) = true := by
      intro hany
      obtain ⟨q, hq, hqid⟩ := List.any_eq_true.mp hany
      have hmem : r.id ∈ acc.map (fun q => q.id) :=
        List.mem_map.mpr ⟨q, hq, beq_iff_eq.mp hqid⟩
      have hnd := h
      unfold wfRows at hnd
      rw [List.map_append, List.nodup_append] at hnd
      exact hnd.2.2 hmem (by simp)
    rw [List.foldl_cons]
    have hsave : dbSave acc r = acc ++ [r] := by
      unfold dbSave
      rw [if_neg hnotmem]
    rw [hsave]
    have h' : wfRows ((acc ++ [r]) ++ recs) := by
      rw [List.append_assoc]
      simpa using h
    rw [ih (acc ++ [r]) h', List.append_assoc]
    rfl

theorem buildRows_of_wf (rows : List FileRecord) (h : wfRows rows) :
    buildRows rows = rows := by
  have := foldl_dbSave_of_wf rows [] (by simpa using h)
  simpa using this

theorem loadRows_snapshot (rows : List FileRecord) (h : wfRows rows) :
    loadRows (Except.ok (dbSnapshot rows)) = rows := by
  show (match (dbSnapshot rows).mapM fromDictE with
    | Except.error _ => ([] : List FileRecord)
    | Except.ok recs => buildRows recs) = rows
  unfold dbSnapshot
  rw [mapM_fromDict_toDict]
  exact buildRows_of_wf rows h

/-- C1: saving a record and reloading the store from the snapshot file
written by the save yields the record unchanged: `_from_dict` inverts
`_to_dict` field by field (`stored_path` and `uploaded_at` up to the
representation identities of the embedding), and looking the record's
id up in the reloaded store returns the saved record. -/
theorem c1_store_roundtrip (rows : List FileRecord) (r : FileRecord)
    (hwf : wfRows rows) :
    fromDictE (toDict r) = Except.ok r ∧
    dbGet (loadRows (Except.ok (dbSnapshot (dbSave rows r)))) r.id = some r := by
  refine ⟨from_to_dict r, ?_⟩
  rw [loadRows_snapshot _ (wfRows_dbSave rows r hwf), dbGet_dbSave_self]

/-- C1 witness: the round-trip at a concrete record saved into the
empty store. -/
theorem c1_store_roundtrip_witness :
    fromDictE (toDict wRecord) = Except.ok wRecord ∧
    dbGet (loadRows (Except.ok (dbSnapshot (dbSave [] wRecord)))) wRecord.id
      = some wRecord :=
  c1_store_roundtrip [] wRecord (by decide)

/-- C6: upload of an existing regular file whose extension is not
allowed fails with the invalid-type error, leaving the store rows and
the managed uploads directory exactly as they were. -/
theorem c6_invalid_type (srcPath uuidHex : String) (copiedSize : Int)
    (now : String) (rows : List FileRecord) (uploadsDir : List String)
    (h : is_allowed_file srcPath = false) :
    upload_file srcPath true uuidHex copiedSize now rows uploadsDir
      = ⟨rows, uploadsDir, Except.error UploadErr.invalidType⟩ := by
  unfold upload_file
  rw [h]
  rfl

/-- C6 witness: a `.pdf` upload attempt at a concrete state. -/
theorem c6_invalid_type_witness :
    upload_file "doc.pdf" true "aaa" 7 "2026-01-01T00:00:00+00:00"
        [wRecord] ["uploads/aaa.txt"]
      = ⟨[wRecord], ["uploads/aaa.txt"],
          Except.error UploadErr.invalidType⟩ :=
  c6_invalid_type "doc.pdf" "aaa" 7 "2026-01-01T00:00:00+00:00"
    [wRecord] ["uploads/aaa.txt"] (by decide)

/-- C7: an unreadable or malformed snapshot (a failed parse, or an
entry set on which deserialization raises) loads as the empty store
rather than failing. -/
theorem c7_corrupt_snapshot_loads_empty :
    (∀ e, loadRows (Except.error e) = []) ∧
    (∀ items : List RawEntry, items.mapM fromDictE = Except.error () →
      loadRows (Except.ok items) = []) := by
  refine ⟨fun e => rfl, fun items h => ?_⟩
  show (match items.mapM fromDictE with
    | Except.error _ => ([] : List FileRecord)
    | Except.ok recs => buildRows recs) = []
  rw [h]

/-- C7 witness: a snapshot entry with every key missing fails
deserialization and loads as the empty store. -/
theorem c7_corrupt_snapshot_loads_empty_witness :
    loadRows (Except.ok [RawEntry.mk none none none none none none none none])
      = [] :=
  c7_corrupt_snapshot_loads_empty.2
    [RawEntry.mk none none none none none none none none] rfl

/-- C8: processing an id not present in the store fails with the
not-found error; the rows are unchanged and no snapshot flush
happens. -/
theorem c8_process_not_found (fileBytes : String → Option (List (Fin 256)))
    (rows : List FileRecord) (recordId : String)
    (h : dbGet rows recordId = none) :
    process_file fileBytes rows recordId
      = ⟨rows, none, Except.error ProcErr.recordNotFound⟩ := by
  unfold process_file
  rw [h]

/-- C8 witness: processing an unknown id against the empty store. -/
theorem c8_process_not_found_witness :
    process_file (fun _ => none) [] "missing.txt"
      = ⟨[], none, Except.error ProcErr.recordNotFound⟩ :=
  c8_process_not_found (fun _ => none) [] "missing.txt" rfl

/-- C10: an entry loads exactly when the five required keys are
present; when it loads, a missing `status` key defaults to
`"UPLOADED"` and the counts mirror the entry (absent keys give absent
counts). -/
theorem c10_from_dict_defaults (d : RawEntry) :
    ((fromDictE d).isOk = true ↔
      d.id.isSome = true ∧ d.original_name.isSome = true ∧
      d.stored_path.isSome = true ∧ d.size_bytes.isSome = true ∧
      d.uploaded_at.isSome = true) ∧
    (∀ r, fromDictE d = Except.ok r →
      r.status = d.status.getD "UPLOADED" ∧
      r.line_count = d.line_count ∧ r.word_count = d.word_count) := by
  obtain ⟨i, n, p, s, t, st, lc, wc⟩ := d
  constructor
  · cases i <;> cases n <;> cases p <;> cases s <;> cases t <;>
      simp [fromDictE, reqKey, Except.isOk, Except.toBool, Bind.bind,
        Except.bind, Pure.pure, Except.pure]
  · intro r hr
    cases i <;> cases n <;> cases p <;> cases s <;> cases t <;>
      simp [fromDictE, reqKey, Bind.bind, Except.bind, Pure.pure,
        Except.pure] at hr
    subst hr
    exact ⟨rfl, rfl, rfl⟩

/-- C10 witness: a minimal entry carrying only the required keys loads
with the defaulted status and absent counts. -/
theorem c10_from_dict_defaults_witness :
    (FileRecord.mk "a.txt" "a.txt" "uploads/a.txt" 3
        "2026-01-01T00:00:00+00:00" "UPLOADED" none none).status
      = (RawEntry.mk (some "a.txt") (some "a.txt") (some "uploads/a.txt")
          (some 3) (some "2026-01-01T00:00:00+00:00")
          none none none).status.getD "UPLOADED" ∧
    (FileRecord.mk "a.txt" "a.txt" "uploads/a.txt" 3
        "2026-01-01T00:00:00+00:00" "UPLOADED" none none).line_count
      = (RawEntry.mk (some "a.txt") (some "a.txt") (some "uploads/a.txt")
          (some 3) (some "2026-01-01T00:00:00+00:00")
          none none none).line_count ∧
    (FileRecord.mk "a.txt" "a.txt" "uploads/a.txt" 3
        "2026-01-01T00:00:00+00:00" "UPLOADED" none none).word_count
      = (RawEntry.mk (some "a.txt") (some "a.txt") (some "uploads/a.txt")
          (some 3) (some "2026-01-01T00:00:00+00:00")
          none none none).word_count :=
  (c10_from_dict_defaults _).2 _ rfl

theorem dbGet_id_eq (rows : List FileRecord) (recordId : String)
    (rec : FileRecord) (h : dbGet rows recordId = some rec) :
    rec.id = recordId := by
  unfold dbGet at h
  induction rows with
  | nil => simp at h
  | cons q rows ih =>
    rw [List.find?_cons] at h
    by_cases hq : q.id == recordId
    · simp only [hq] at h
      injection h with h
      subst h
      exact beq_iff_eq.mp hq
    · rw [Bool.not_eq_true] at hq
      simp only [hq] at h
      exact ih h

theorem process_file_ok (fileBytes : String → Option (List (Fin 256)))
    (rows : List FileRecord) (recordId : String) (rec : FileRecord)
    (bytes : List (Fin 256)) (text : List Char)
    (hget : dbGet rows recordId = some rec)
    (hfb : fileBytes rec.stored_path = some bytes)
    (hrt : readTextRobust bytes = Except.ok text) :
    process_file fileBytes rows recordId
      = ⟨dbSave rows (applyProcess rec (countLinesWords text).1
            (countLinesWords text).2),
         some (dbSnapshot (dbSave rows (applyProcess rec
            (countLinesWords text).1 (countLinesWords text).2))),
         Except.ok (applyProcess rec (countLinesWords text).1
            (countLinesWords text).2)⟩ := by
  unfold process_file
  simp only [hget, hfb, hrt]

/-- C9: a successful processing call leaves every field other than the
counts and the status unchanged, and the re-saved store holds exactly
the updated record under the processed id. -/
theorem c9_process_frame (fileBytes : String → Option (List (Fin 256)))
    (rows : List FileRecord) (recordId : String)
    (rows1 : List FileRecord) (fl1 : Option (List RawEntry))
    (r1 rec : FileRecord)
    (hget : dbGet rows recordId = some rec)
    (h1 : process_file fileBytes rows recordId
      = ⟨rows1, fl1, Except.ok r1⟩) :
    r1.id = rec.id ∧ r1.original_name = rec.original_name ∧
    r1.stored_path = rec.stored_path ∧ r1.size_bytes = rec.size_bytes ∧
    r1.uploaded_at = rec.uploaded_at ∧
    dbGet rows1 recordId = some r1 := by
  unfold process_file at h1
  split at h1
  · rename_i hnone
    rw [hget] at hnone
    simp at hnone
  · rename_i rec' hget'
    rw [hget] at hget'
    injection hget' with hrec
    subst hrec
    split at h1
    · simp at h1
    · rename_i bytes hfb
      split at h1
      · simp at h1
      · rename_i text hrt
        simp only [ProcOutcome.mk.injEq, Except.ok.injEq] at h1
        obtain ⟨hrows, -, hr⟩ := h1
        subst hrows
        subst hr
        refine ⟨rfl, rfl, rfl, rfl, rfl, ?_⟩
        have hid : (applyProcess rec (countLinesWords text).1
            (countLinesWords text).2).id = recordId :=
          dbGet_id_eq rows recordId rec hget
        rw [← hid]
        exact dbGet_dbSave_self rows _

/-- C9 witness: the frame condition at a concrete store and file. -/
theorem c9_process_frame_witness :
    wR1.id = wRecord.id ∧ wR1.original_name = wRecord.original_name ∧
    wR1.stored_path = wRecord.stored_path ∧
    wR1.size_bytes = wRecord.size_bytes ∧
    wR1.uploaded_at = wRecord.uploaded_at ∧
    dbGet wRows1 "aaa.txt" = some wR1 :=
  c9_process_frame wFs [wRecord] "aaa.txt" wRows1
    (some (dbSnapshot wRows1)) wR1 wRecord rfl rfl

/-- C4: re-processing an id whose stored file content is unchanged
succeeds again (no error merely because the record is already
processed), computes the same counts, and leaves the status
`"PROCESSED"`. -/
theorem c4_process_idempotent (fileBytes : String → Option (List (Fin 256)))
    (rows : List FileRecord) (recordId : String)
    (rows1 : List FileRecord) (fl1 : Option (List RawEntry))
    (r1 : FileRecord)
    (h1 : process_file fileBytes rows recordId
      = ⟨rows1, fl1, Except.ok r1⟩) :
    ∃ rows2 fl2 r2,
      process_file fileBytes rows1 recordId = ⟨rows2, fl2, Except.ok r2⟩ ∧
      r2.line_count = r1.line_count ∧ r2.word_count = r1.word_count ∧
      r1.status = "PROCESSED" ∧ r2.status = "PROCESSED" := by
  unfold process_file at h1
  split at h1
  · simp at h1
  · rename_i rec hget
    split at h1
    · simp at h1
    · rename_i bytes hfb
      split at h1
      · simp at h1
      · rename_i text hrt
        simp only [ProcOutcome.mk.injEq, Except.ok.injEq] at h1
        obtain ⟨hrows, -, hr⟩ := h1
        subst hrows
        subst hr
        have hid : (applyProcess rec (countLinesWords text).1
            (countLinesWords text).2).id = recordId :=
          dbGet_id_eq rows recordId rec hget
        have hget2 : dbGet
            (dbSave rows (applyProcess rec (countLinesWords text).1
              (countLinesWords text).2)) recordId
            = some (applyProcess rec (countLinesWords text).1
              (countLinesWords text).2) := by
          rw [← hid]
          exact dbGet_dbSave_self rows _
        exact ⟨_, _, _,
          process_file_ok fileBytes _ recordId _ bytes text hget2 hfb hrt,
          rfl, rfl, rfl, rfl⟩

/-- C4 witness: processing the concrete store twice. -/
theorem c4_process_idempotent_witness :
    ∃ rows2 fl2 r2,
      process_file wFs wRows1 "aaa.txt" = ⟨rows2, fl2, Except.ok r2⟩ ∧
      r2.line_count = wR1.line_count ∧ r2.word_count = wR1.word_count ∧
      wR1.status = "PROCESSED" ∧ r2.status = "PROCESSED" :=
  c4_process_idempotent wFs [wRecord] "aaa.txt" wRows1
    (some (dbSnapshot wRows1)) wR1 rfl

/-- C2: for every record reachable through the core operations,
`status = "PROCESSED"` holds iff both counts are present; upload
creates records with status `"UPLOADED"` and absent counts; a
successful processing step sets both counts and the `"PROCESSED"`
status together. -/
theorem c2_status_iff_counts :
    (∀ r, ReachableRecord r →
      (r.status = "PROCESSED" ↔ r.line_count.isSome ∧ r.word_count.isSome)) ∧
    (∀ targetName origName destPath sizeBytes now,
      (mkUploadRecord targetName origName destPath sizeBytes now).status
          = "UPLOADED" ∧
      (mkUploadRecord targetName origName destPath sizeBytes now).line_count
          = none ∧
      (mkUploadRecord targetName origName destPath sizeBytes now).word_count
          = none) ∧
    (∀ r lc wc,
      (applyProcess r lc wc).status = "PROCESSED" ∧
      (applyProcess r lc wc).line_count = some (lc : Int) ∧
      (applyProcess r lc wc).word_count = some (wc : Int)) := by
  refine ⟨?_, ?_, ?_⟩
  · intro r h
    induction h with
    | upload targetName origName destPath sizeBytes now =>
      simp [mkUploadRecord]
    | process r lc wc _ _ =>
      simp [applyProcess]
    | reload r r2 _ heq ih =>
      rw [from_to_dict r] at heq
      cases heq
      exact ih
  · intro targetName origName destPath sizeBytes now
    exact ⟨rfl, rfl, rfl⟩
  · intro r lc wc
    exact ⟨rfl, rfl, rfl⟩

/-- C2 witness: the invariant instantiated at a concrete reachable
record (a freshly uploaded one). -/
theorem c2_status_iff_counts_witness :
    (mkUploadRecord "aaa.txt" "x.txt" "uploads/aaa.txt" 3
        "2026-01-01T00:00:00+00:00").status = "PROCESSED" ↔
      (mkUploadRecord "aaa.txt" "x.txt" "uploads/aaa.txt" 3
        "2026-01-01T00:00:00+00:00").line_count.isSome ∧
      (mkUploadRecord "aaa.txt" "x.txt" "uploads/aaa.txt" 3
        "2026-01-01T00:00:00+00:00").word_count.isSome :=
  c2_status_iff_counts.1 _
    (ReachableRecord.upload "aaa.txt" "x.txt" "uploads/aaa.txt" 3
      "2026-01-01T00:00:00+00:00")

/-- C5: the decode fallback chain never fails on any byte sequence —
Latin-1 accepts every byte value, so the decode-error branch is
unreachable whenever the file's bytes could be read. -/
theorem c5_decode_total (bs : List (Fin 256)) :
    (latin1Decode bs).isSome = true ∧ (readTextRobust bs).isOk = true := by
  refine ⟨rfl, ?_⟩
  unfold readTextRobust
  cases utf8Decode bs with
  | some s => rfl
  | none =>
    cases utf8SigDecode bs with
    | some s => rfl
    | none => rfl
